import Mathlib

/-!
Shallow embedding of the rust_forth repository: the stack-machine VM
(src/stack_machine.rs) and the Forth compiler (src/forth_compiler.rs),
together with theorems settling the frozen claims about the
natural-language specification.

Modelling conventions:
* Rust i64 values are modelled as unbounded Int; none of the claims
  involves i64 overflow.  Casts that can wrap or fail in Rust
  (as usize, usize::try_from) are modelled explicitly.
* Vec stacks are modelled as Lists with the head of the list being the
  top of the stack (the last element of the Rust Vec).
* A Rust panic (out-of-bounds index, division by zero, failed unwrap,
  an explicit panic in unreachable match arms) is modelled by the
  distinguished crash outcomes, kept apart from the error Results the
  Rust functions can return.
* The Rust execute loop can run forever under GasLimit::Unlimited, so
  the loop is given an explicit fuel parameter counting loop
  iterations; an outcome other than timeout is exactly the result of
  the Rust loop.  Under GasLimit::Limited l, fuel l + 2 always
  suffices.
-/

/-- The VM instruction set of src/stack_machine.rs (enum Opcode). -/
inductive Opcode
  | JMP | JR | JRZ | JRNZ | CALL | CMPZ | CMPNZ
  | LDI (n : Int)
  | POP | SWAP | RET | ADD | SUB | MUL | DIV
  | NOT | DUP | TRAP | NOP
deriving DecidableEq, Repr

/-- GasLimit from src/stack_machine.rs. -/
inductive GasLimit
  | Unlimited
  | Limited (l : Nat)
deriving DecidableEq, Repr

/-- StackMachineError from src/stack_machine.rs (spelling kept). -/
inductive StackMachineError
  | UnkownError
  | NumberStackUnderflow
  | UnhandledTrap
  | RanOutOfGas
deriving DecidableEq, Repr

/-- TrapHandled from src/stack_machine.rs. -/
inductive TrapHandled
  | Handled
  | NotHandled
deriving DecidableEq, Repr

/-- StackMachineState from src/stack_machine.rs.  number_stack has its
head at the top of the stack (the end of the Rust Vec). -/
structure StackMachineState where
  number_stack : List Int
  return_stack : List Nat
  opcodes : List Opcode
  pc : Nat
  gas_used : Nat
deriving DecidableEq, Repr

/-- Result of one handler invocation: handlers receive mutable access
to the whole state, so both outcomes carry the possibly mutated
state. -/
inductive HandlerResult
  | ok (t : TrapHandled) (s : StackMachineState)
  | err (e : StackMachineError) (s : StackMachineState)

/-- A trap handler (the HandleTrap trait object): a function of the
trap id and the mutable VM state. -/
def Handler : Type := Int → StackMachineState → HandlerResult

/-- TrapHandler::new plus its HandleTrap impl: run the closure only
when the trap number matches the registered id, otherwise report
NotHandled without touching the state. -/
def TrapHandler.new (handled_trap : Int)
    (f : Int → StackMachineState → HandlerResult) : Handler :=
  fun trap_number st =>
    if trap_number = handled_trap then f handled_trap st
    else .ok .NotHandled st

/-- The i64-to-usize cast (as usize): wraps modulo 2^64. -/
def usizeOfI64 (x : Int) : Nat := (x % (2 : Int) ^ 64).toNat

/-- usize::try_from on an i128 value: fails (Rust unwrap panics) when
the value is negative or exceeds usize::MAX. -/
def usizeFromI128 (n : Int) : Option Nat :=
  if 0 ≤ n ∧ n < (2 : Int) ^ 64 then some n.toNat else none

/-- Result of one iteration of the Rust execute loop body. -/
inductive StepResult
  | cont (s : StackMachineState)
  | done (s : StackMachineState)
  | fail (e : StackMachineError) (s : StackMachineState)
  | crash (s : StackMachineState)

/-- The common tail of a loop iteration that did not return: advance
pc unless the opcode set it, and increment the gas counter. -/
def afterInstr (s : StackMachineState) (pc_reset : Bool) : StepResult :=
  .cont { s with pc := if pc_reset then s.pc else s.pc + 1,
                 gas_used := s.gas_used + 1 }

/-- The handler consultation loop in the TRAP arm: handlers are asked
in registration order; the first Handled ends the run successfully
(the Rust code does return Ok at that point); a handler error aborts;
if none handles the trap the run fails with UnhandledTrap. -/
def consultHandlers (trap_id : Int) :
    List Handler → StackMachineState → StepResult
  | [], s => .fail .UnhandledTrap s
  | h :: rest, s =>
    match h trap_id s with
    | .err e s' => .fail e s'
    | .ok .Handled s' => .done s'
    | .ok .NotHandled s' => consultHandlers trap_id rest s'

/-- One dispatch of a fetched opcode: the body of the match statement
inside StackMachine::execute. -/
def stepOp (handlers : List Handler) (s : StackMachineState) :
    Opcode → StepResult
  | .JMP =>
    match s.number_stack with
    | [] => .fail .NumberStackUnderflow s
    | x :: xs =>
      afterInstr { s with number_stack := xs, pc := usizeOfI64 x } true
  | .JR =>
    match s.number_stack with
    | [] => .fail .NumberStackUnderflow s
    | x :: xs =>
      match usizeFromI128 ((s.pc : Int) + x) with
      | none => .crash { s with number_stack := xs }
      | some p =>
        afterInstr { s with number_stack := xs, pc := p } true
  | .CALL =>
    -- the return address is pushed before the target is popped
    match s.number_stack with
    | [] =>
      .fail .NumberStackUnderflow
        { s with return_stack := (s.pc + 1) :: s.return_stack }
    | x :: xs =>
      afterInstr { s with number_stack := xs,
                          return_stack := (s.pc + 1) :: s.return_stack,
                          pc := usizeOfI64 x } true
  | .CMPZ =>
    match s.number_stack with
    | [] => .fail .NumberStackUnderflow s
    | x :: xs =>
      afterInstr
        { s with number_stack := (if x = 0 then 0 else -1) :: xs } false
  | .CMPNZ =>
    match s.number_stack with
    | [] => .fail .NumberStackUnderflow s
    | x :: xs =>
      afterInstr
        { s with number_stack := (if x = 0 then -1 else 0) :: xs } false
  | .JRZ =>
    match s.number_stack with
    | [] => .fail .NumberStackUnderflow s
    | off :: rest =>
      match rest with
      | [] => .fail .NumberStackUnderflow { s with number_stack := [] }
      | x :: xs =>
        if x = 0 then
          match usizeFromI128 ((s.pc : Int) + off) with
          | none => .crash { s with number_stack := xs }
          | some p =>
            afterInstr { s with number_stack := xs, pc := p } true
        else afterInstr { s with number_stack := xs } false
  | .JRNZ =>
    match s.number_stack with
    | [] => .fail .NumberStackUnderflow s
    | off :: rest =>
      match rest with
      | [] => .fail .NumberStackUnderflow { s with number_stack := [] }
      | x :: xs =>
        if x ≠ 0 then
          match usizeFromI128 ((s.pc : Int) + off) with
          | none => .crash { s with number_stack := xs }
          | some p =>
            afterInstr { s with number_stack := xs, pc := p } true
        else afterInstr { s with number_stack := xs } false
  | .LDI n =>
    afterInstr { s with number_stack := n :: s.number_stack } false
  | .POP =>
    match s.number_stack with
    | [] => .fail .NumberStackUnderflow s
    | _ :: xs => afterInstr { s with number_stack := xs } false
  | .RET =>
    match s.return_stack with
    | [] => .done s
    | oldpc :: rs =>
      afterInstr { s with return_stack := rs, pc := oldpc } true
  | .ADD =>
    match s.number_stack with
    | [] => .fail .NumberStackUnderflow s
    | [_] => .fail .NumberStackUnderflow { s with number_stack := [] }
    | x :: y :: xs =>
      afterInstr { s with number_stack := (x + y) :: xs } false
  | .SUB =>
    match s.number_stack with
    | [] => .fail .NumberStackUnderflow s
    | [_] => .fail .NumberStackUnderflow { s with number_stack := [] }
    | x :: y :: xs =>
      afterInstr { s with number_stack := (x - y) :: xs } false
  | .MUL =>
    match s.number_stack with
    | [] => .fail .NumberStackUnderflow s
    | [_] => .fail .NumberStackUnderflow { s with number_stack := [] }
    | x :: y :: xs =>
      afterInstr { s with number_stack := (x * y) :: xs } false
  | .DIV =>
    match s.number_stack with
    | [] => .fail .NumberStackUnderflow s
    | [_] => .fail .NumberStackUnderflow { s with number_stack := [] }
    | x :: y :: xs =>
      -- Rust division panics on a zero divisor; otherwise i64 division
      -- truncates toward zero
      if y = 0 then .crash { s with number_stack := xs }
      else afterInstr { s with number_stack := Int.tdiv x y :: xs } false
  | .NOT =>
    match s.number_stack with
    | [] => .fail .NumberStackUnderflow s
    | x :: xs =>
      -- bitwise complement of an i64 two-complement value
      afterInstr { s with number_stack := (-x - 1) :: xs } false
  | .DUP =>
    match s.number_stack with
    | [] => .fail .NumberStackUnderflow s
    | x :: xs =>
      afterInstr { s with number_stack := x :: x :: xs } false
  | .SWAP =>
    match s.number_stack with
    | [] => .fail .NumberStackUnderflow s
    | [_] => .fail .NumberStackUnderflow { s with number_stack := [] }
    | x :: y :: xs =>
      afterInstr { s with number_stack := y :: x :: xs } false
  | .TRAP =>
    match s.number_stack with
    | [] => .fail .NumberStackUnderflow s
    | trap_id :: xs =>
      consultHandlers trap_id handlers { s with number_stack := xs }
  | .NOP => afterInstr s false

/-- One iteration of the execute loop: fetch the opcode at pc (Rust
indexes the Vec directly, so a pc outside the image is a panic) and
dispatch it. -/
def step (handlers : List Handler) (s : StackMachineState) : StepResult :=
  match s.opcodes[s.pc]? with
  | none => .crash s
  | some op => stepOp handlers s op

/-- Outcome of running the execute loop. timeout is an artifact of the
fuel parameter (the Rust loop would still be running). -/
inductive Outcome
  | ok (s : StackMachineState)
  | err (e : StackMachineError) (s : StackMachineState)
  | crashed (s : StackMachineState)
  | timeout (s : StackMachineState)

/-- The execute loop of StackMachine::execute: run one iteration, then
apply the gas check (performed only on the fall-through path of the
loop body, after the gas increment). -/
def executeN (handlers : List Handler) (g : GasLimit) :
    Nat → StackMachineState → Outcome
  | 0, s => .timeout s
  | fuel + 1, s =>
    match step handlers s with
    | .done s' => .ok s'
    | .fail e s' => .err e s'
    | .crash s' => .crashed s'
    | .cont s' =>
      match g with
      | .Unlimited => executeN handlers g fuel s'
      | .Limited l =>
        if s'.gas_used > l then .err .RanOutOfGas s'
        else executeN handlers g fuel s'

/-- StackMachine::execute: reset the gas counter to zero, set pc to
the starting point, then run the loop. -/
def StackMachine.execute (handlers : List Handler) (fuel : Nat)
    (starting_point : Nat) (gas_limit : GasLimit)
    (s : StackMachineState) : Outcome :=
  executeN handlers gas_limit fuel
    { s with pc := starting_point, gas_used := 0 }

/-- A fresh StackMachineState (StackMachineState::new). -/
def StackMachineState.new : StackMachineState :=
  ⟨[], [], [], 0, 0⟩

/-- ForthError from src/error.rs (the Io variant, which only wraps a
host io error, is outside the embedded slice and omitted). -/
inductive ForthError
  | UnknownError
  | NoneError
  | UnknownToken (s : String)
  | PopOfEmptyStack
  | InvalidSyntax (s : String)
  | MissingSemicolonAfterColon
  | UnhandledTrap
  | RanOutOfGas
deriving DecidableEq, Repr

/-- The From StackMachineError impl for ForthError in src/error.rs. -/
def forthErrorOfSM : StackMachineError → ForthError
  | .NumberStackUnderflow => .PopOfEmptyStack
  | .UnkownError => .UnknownError
  | .UnhandledTrap => .UnhandledTrap
  | .RanOutOfGas => .RanOutOfGas

/-- Token from src/forth_compiler.rs. -/
inductive Token
  | Number (n : Int)
  | Command (s : String)
  | Colon (s : String)
  | SemiColon
  | End
  | Error (s : String)
deriving DecidableEq, Repr

/-- Digit-string evaluation used by the i64 parser: consume decimal
digits, failing on any other character. -/
def parseDigitsAux : List Char → Nat → Option Nat
  | [], acc => some acc
  | c :: cs, acc =>
    if c.isDigit then parseDigitsAux cs (acc * 10 + (c.toNat - 48))
    else none

/-- The str::parse::<i64> call used by the tokenizer: an optional sign
followed by at least one ASCII decimal digit, with the value required
to fit in an i64. -/
def parseI64 (s : String) : Option Int :=
  match s.data with
  | [] => none
  | '+' :: rest =>
    match rest with
    | [] => none
    | _ =>
      (parseDigitsAux rest 0).bind fun n =>
        if (n : Int) ≤ 2 ^ 63 - 1 then some (n : Int) else none
  | '-' :: rest =>
    match rest with
    | [] => none
    | _ =>
      (parseDigitsAux rest 0).bind fun n =>
        if (n : Int) ≤ 2 ^ 63 then some (-(n : Int)) else none
  | cs =>
    (parseDigitsAux cs 0).bind fun n =>
      if (n : Int) ≤ 2 ^ 63 - 1 then some (n : Int) else none

/-- Character-level worker for split_whitespace, carrying the current
word in reverse. -/
def splitWhitespaceAux : List Char → List Char → List String
  | [], acc => if acc.isEmpty then [] else [String.mk acc.reverse]
  | c :: cs, acc =>
    if c.isWhitespace then
      if acc.isEmpty then splitWhitespaceAux cs []
      else String.mk acc.reverse :: splitWhitespaceAux cs []
    else splitWhitespaceAux cs (c :: acc)

/-- split_whitespace: split on whitespace runs, producing the
non-empty words in order. -/
def splitWhitespace (s : String) : List String :=
  splitWhitespaceAux s.data []

/-- The word-classification loop of ForthCompiler::tokenize_string,
operating on the whitespace-split words: numbers become Number tokens,
a colon consumes the following word as the new word name (an error if
the input ends there), a semicolon stands alone, anything else is a
Command. -/
def tokenizeWords : List String → Except ForthError (List Token)
  | [] => .ok []
  | w :: rest =>
    match parseI64 w with
    | some n => do
      let tv ← tokenizeWords rest
      return Token.Number n :: tv
    | none =>
      if w = ":" then
        match rest with
        | [] =>
          .error (.InvalidSyntax "No token after :, but one needed to compile")
        | name :: rest2 => do
          let tv ← tokenizeWords rest2
          return Token.Colon name :: tv
      else if w = ";" then do
        let tv ← tokenizeWords rest
        return Token.SemiColon :: tv
      else do
        let tv ← tokenizeWords rest
        return Token.Command w :: tv

/-- ForthCompiler::tokenize_string. -/
def tokenize_string (s : String) : Except ForthError (List Token) :=
  tokenizeWords (splitWhitespace s)

/-- The intrinsic_words table built in ForthCompiler::new; it is never
mutated afterwards, so it is modelled as a fixed lookup function. -/
def intrinsic_words : String → Option (List Opcode)
  | "POP" => some [.POP]
  | "SWAP" => some [.SWAP]
  | "ADD" => some [.ADD]
  | "SUB" => some [.SUB]
  | "MUL" => some [.MUL]
  | "DIV" => some [.DIV]
  | "DUP" => some [.DUP]
  | "TRAP" => some [.TRAP]
  | "INC" => some [.LDI 1, .ADD]
  | "DEC" => some [.LDI (-1), .ADD]
  | _ => none

/-- The word_addresses HashMap, modelled as an association list where
lookup takes the first (most recently inserted) binding, so insertion
by prepending overrides earlier bindings exactly as HashMap::insert
does. -/
def lookupWord (l : List (String × Nat)) (s : String) : Option Nat :=
  (l.find? fun p => p.1 = s).map (fun p => p.2)

/-- ForthCompiler: the compiler with its embedded stack machine state
(the trap handler list is carried separately, as a parameter of the
execution functions, because it is host code and never mutated). -/
structure ForthCompiler where
  sm : StackMachineState
  word_addresses : List (String × Nat)
  last_function : Nat
deriving DecidableEq, Repr

/-- ForthCompiler::new. -/
def ForthCompiler.new : ForthCompiler :=
  ⟨StackMachineState.new, [], 0⟩

/-- Mode from src/forth_compiler.rs. -/
inductive Mode
  | Interpreting
  | Compiling (s : String)
deriving DecidableEq, Repr

/-- DeferredIfStatement from src/forth_compiler.rs. -/
structure DeferredIfStatement where
  if_location : Nat
  else_location : Option Nat
deriving DecidableEq, Repr

/-- Result of a compilation step: either the produced opcodes, a
ForthError, or a Rust panic (unreachable match arms, failed unwrap of
an offset conversion). -/
inductive CompileResult
  | ok (ops : List Opcode)
  | err (e : ForthError)
  | crashed (msg : String)
deriving Repr

/-- The token loop of ForthCompiler::compile_token_vector, carrying
the deferred-if stack and the opcodes emitted so far.  The offset
arithmetic in the THEN arm is done in Rust on u64 with a final
conversion to i64 whose unwrap panics when the difference is negative
(the subtraction wraps far above i64::MAX); that conversion is
modelled by the explicit negativity checks. -/
def compileTVAux (c : ForthCompiler) :
    List Token → List DeferredIfStatement → List Opcode → CompileResult
  | [], _, out => .ok out
  | t :: rest, defs, out =>
    match t with
    | .Number n => compileTVAux c rest defs (out ++ [.LDI n])
    | .Command s =>
      let current_instruction := out.length
      if s = "IF" then
        compileTVAux c rest (⟨current_instruction, none⟩ :: defs)
          (out ++ [.LDI 0, .JRNZ])
      else if s = "ELSE" then
        match defs with
        | [] => .err (.InvalidSyntax "ELSE without IF")
        | d :: ds =>
          compileTVAux c rest
            ({ d with else_location := some current_instruction } :: ds)
            (out ++ [.LDI 0, .JR])
      else if s = "THEN" then
        match defs with
        | [] => .err (.InvalidSyntax "THEN without IF")
        | d :: ds =>
          let if_jump_offset : Int :=
            match d.else_location with
            | none => (current_instruction : Int) - ((d.if_location : Int) + 1)
            | some el => (current_instruction : Int) - (el : Int) + 1
          if if_jump_offset < 0 then
            .crashed "if offset conversion"
          else
            let out1 := out.set d.if_location (.LDI if_jump_offset)
            match d.else_location with
            | none => compileTVAux c rest ds out1
            | some el =>
              let else_jump_offset : Int :=
                (current_instruction : Int) - ((el : Int) + 1)
              if else_jump_offset < 0 then
                .crashed "else offset conversion"
              else
                compileTVAux c rest ds (out1.set el (.LDI else_jump_offset))
      else
        match lookupWord c.word_addresses s with
        | some offset =>
          compileTVAux c rest defs (out ++ [.LDI (offset : Int), .CALL])
        | none =>
          match intrinsic_words s with
          | some ol => compileTVAux c rest defs (out ++ ol)
          | none => .err (.UnknownToken s)
    | .Colon _ => .crashed "Colon should never reach this function"
    | .SemiColon => .crashed "SemiColon should never reach this function"
    | .End => .crashed "Token End not coded yet"
    | .Error _ => .crashed "Token Error not coded yet"

/-- ForthCompiler::compile_token_vector. -/
def compile_token_vector (c : ForthCompiler) (tv : List Token) :
    CompileResult :=
  compileTVAux c tv [] []

/-- Vec::resize with Opcode::NOP filler: truncate or pad to length n. -/
def resizeOpcodes (l : List Opcode) (n : Nat) : List Opcode :=
  if l.length ≤ n then l ++ List.replicate (n - l.length) Opcode.NOP
  else l.take n

/-- The token slice tv[a..b]. -/
def sliceTokens (tv : List Token) (a b : Nat) : List Token :=
  (tv.drop a).take (b - a)

/-- Result of the stripping pass: the updated compiler (mutated even
on the error path, as the Rust method works on &mut self) plus the
immediate-mode opcodes. -/
inductive StripResult
  | ok (c : ForthCompiler) (ops : List Opcode)
  | err (e : ForthError) (c : ForthCompiler)
  | crashed (msg : String)
deriving Repr

/-- The indexed for-loop of
ForthCompiler::compile_token_vector_strip_word_definitions, recursing
on the tokens not yet visited (always tv.drop i): on a Colon the
segment start is reset to the colon index (dropping any tokens
accumulated since the previous segment end), on a SemiColon the word
body between the markers is compiled, committed past the high-water
mark and recorded in the word table; after the loop the remaining
segment is compiled as the immediate-mode body with a final RET. -/
def stripLoop (tv : List Token) :
    List Token → ForthCompiler → Nat → Nat → Nat → Mode → StripResult
  | [], c, _, segment_start, segment_stop, _ =>
    match compile_token_vector c (sliceTokens tv segment_start segment_stop) with
    | .crashed m => .crashed m
    | .err e => .err e c
    | .ok tvi => .ok c (tvi ++ [.RET])
  | t :: rest, c, i, segment_start, segment_stop, mode =>
    match t with
    | .Colon s =>
      match mode with
      | .Interpreting =>
        stripLoop tv rest c (i + 1) i segment_stop (.Compiling s)
      | .Compiling _ =>
        .err (.InvalidSyntax "Second colon before semicolon") c
    | .SemiColon =>
      match mode with
      | .Interpreting =>
        .err (.InvalidSyntax "Semicolon before colon") c
      | .Compiling s =>
        let c1 : ForthCompiler :=
          { c with sm :=
              { c.sm with opcodes := resizeOpcodes c.sm.opcodes c.last_function } }
        match compile_token_vector c1 (sliceTokens tv (segment_start + 1) i) with
        | .crashed m => .crashed m
        | .err e => .err e c1
        | .ok tvc0 =>
          let tvc := tvc0 ++ [Opcode.RET]
          let function_start := c1.last_function
          let c2 : ForthCompiler :=
            { c1 with
              last_function := c1.last_function + tvc.length,
              sm := { c1.sm with opcodes := c1.sm.opcodes ++ tvc },
              word_addresses := (s, function_start) :: c1.word_addresses }
          stripLoop tv rest c2 (i + 1) (i + 1) tv.length .Interpreting
    | _ => stripLoop tv rest c (i + 1) segment_start segment_stop mode

/-- ForthCompiler::compile_token_vector_strip_word_definitions. -/
def compile_token_vector_strip_word_definitions (c : ForthCompiler)
    (tv : List Token) : StripResult :=
  stripLoop tv tv c 0 0 tv.length .Interpreting

/-- Outcome of the combined compile-and-run entry points. -/
inductive ForthOutcome
  | ok (c : ForthCompiler)
  | err (e : ForthError) (c : ForthCompiler)
  | crashed (msg : String)
  | timeout (c : ForthCompiler)
deriving Repr

/-- ForthCompiler::execute_token_vector: strip and compile the word
definitions, truncate the image back to the high-water mark, append
the immediate-mode body, and execute from the high-water mark. -/
def execute_token_vector (handlers : List Handler) (fuel : Nat)
    (c : ForthCompiler) (tv : List Token) (gas_limit : GasLimit) :
    ForthOutcome :=
  match compile_token_vector_strip_word_definitions c tv with
  | .crashed m => .crashed m
  | .err e c' => .err e c'
  | .ok c' ol =>
    let s0 : StackMachineState :=
      { c'.sm with opcodes := resizeOpcodes c'.sm.opcodes c'.last_function ++ ol }
    match StackMachine.execute handlers fuel c'.last_function gas_limit s0 with
    | .ok s' => .ok { c' with sm := s' }
    | .err e s' => .err (forthErrorOfSM e) { c' with sm := s' }
    | .crashed _ => .crashed "panic during execution"
    | .timeout s' => .timeout { c' with sm := s' }

/-- ForthCompiler::execute_string: tokenize then execute. -/
def execute_string (handlers : List Handler) (fuel : Nat)
    (c : ForthCompiler) (s : String) (gas_limit : GasLimit) :
    ForthOutcome :=
  match tokenize_string s with
  | .error e => .err e c
  | .ok tv => execute_token_vector handlers fuel c tv gas_limit

/-- Whether an opcode pops the operand (number) stack when executed:
every opcode except push-immediate, return and no-op does. -/
def popsOperandStack : Opcode → Bool
  | .LDI _ => false
  | .RET => false
  | .NOP => false
  | _ => true

/-- The trap handler registered in test_handle_trap_1: handles trap id
100 by popping one value and pushing 200. -/
def handler100 : Handler :=
  TrapHandler.new 100 (fun _ st =>
    match st.number_stack with
    | [] => .err .NumberStackUnderflow st
    | _ :: xs => .ok .Handled { st with number_stack := 200 :: xs })

/-- The handler consultation loop never produces a cont result: it
either ends the run, aborts with an error, or falls through to
UnhandledTrap. -/
theorem consultHandlers_ne_cont (tid : Int) (hs : List Handler) :
    ∀ (s t : StackMachineState), consultHandlers tid hs s ≠ .cont t := by
  induction hs with
  | nil => intro s t h; exact StepResult.noConfusion h
  | cons hh rest ih =>
    intro s t h
    simp only [consultHandlers] at h
    split at h
    · exact StepResult.noConfusion h
    · exact StepResult.noConfusion h
    · exact ih _ _ h

/-- A loop iteration ends the run successfully only from the RET arm
with an empty return stack or from the TRAP arm when the handler chain
reports Handled. -/
theorem stepOp_done_cases (handlers : List Handler) (s t : StackMachineState)
    (op : Opcode) (hd : stepOp handlers s op = .done t) :
    (op = .RET ∧ s.return_stack = [] ∧ t = s) ∨
    (op = .TRAP ∧ ∃ tid xs, s.number_stack = tid :: xs ∧
      consultHandlers tid handlers { s with number_stack := xs } = .done t) := by
  cases op
  all_goals
    try (exfalso; simp only [stepOp, afterInstr] at hd;
         (repeat' split at hd) <;> exact StepResult.noConfusion hd)
  case RET =>
    rcases hrs : s.return_stack with _ | ⟨p, rs⟩ <;>
      simp only [stepOp, hrs, afterInstr] at hd
    · left; cases hd; exact ⟨rfl, rfl, rfl⟩
    · exact StepResult.noConfusion hd
  case TRAP =>
    rcases hns : s.number_stack with _ | ⟨tid, xs⟩ <;>
      simp only [stepOp, hns] at hd
    · exact StepResult.noConfusion hd
    · exact Or.inr ⟨rfl, tid, xs, rfl, hd⟩

/-- Fetch-level version of stepOp_done_cases. -/
theorem step_done_cases (handlers : List Handler) (s t : StackMachineState)
    (hd : step handlers s = .done t) :
    (s.opcodes[s.pc]? = some Opcode.RET ∧ s.return_stack = [] ∧ t = s) ∨
    (∃ tid xs, s.opcodes[s.pc]? = some Opcode.TRAP ∧
      s.number_stack = tid :: xs ∧
      consultHandlers tid handlers { s with number_stack := xs } = .done t) := by
  rcases hfetch : s.opcodes[s.pc]? with _ | op
  · rw [step, hfetch] at hd; exact StepResult.noConfusion hd
  · rw [step, hfetch] at hd
    rcases stepOp_done_cases handlers s t op hd with
      ⟨hop, hrs, hts⟩ | ⟨hop, tid, xs, hns, hch⟩
    · exact Or.inl ⟨by rw [hop], hrs, hts⟩
    · exact Or.inr ⟨tid, xs, by rw [hop], hns, hch⟩

/-- A successful result of the execute loop always originates from a
done loop iteration. -/
theorem executeN_ok_origin (handlers : List Handler) (g : GasLimit) :
    ∀ (fuel : Nat) (s t : StackMachineState),
      executeN handlers g fuel s = .ok t →
      ∃ u : StackMachineState, step handlers u = .done t := by
  intro fuel
  induction fuel with
  | zero =>
    intro s t h
    simp only [executeN] at h
    exact Outcome.noConfusion h
  | succ n ih =>
    intro s t h
    simp only [executeN] at h
    cases hst : step handlers s with
    | done s' =>
      rw [hst] at h
      cases h
      exact ⟨s, hst⟩
    | fail e s' => rw [hst] at h; exact Outcome.noConfusion h
    | crash s' => rw [hst] at h; exact Outcome.noConfusion h
    | cont s' =>
      rw [hst] at h
      cases g with
      | Unlimited => exact ih s' t h
      | Limited l =>
        have h2 : (if s'.gas_used > l then Outcome.err .RanOutOfGas s'
            else executeN handlers (.Limited l) n s') = Outcome.ok t := h
        by_cases hgas : s'.gas_used > l
        · rw [if_pos hgas] at h2; exact Outcome.noConfusion h2
        · rw [if_neg hgas] at h2; exact ih s' t h2

/-- Every loop iteration that falls through to the bottom of the loop
(a cont result) increments the gas counter by exactly one, including
iterations whose opcode moved the program counter. -/
theorem stepOp_cont_gas (handlers : List Handler) (s t : StackMachineState)
    (op : Opcode) (hc : stepOp handlers s op = .cont t) :
    t.gas_used = s.gas_used + 1 := by
  cases op <;>
    first
    | (simp only [stepOp, afterInstr] at hc;
       (repeat' split at hc) <;>
         first
         | exact StepResult.noConfusion hc
         | (injection hc with h2; subst h2; rfl)
         | exact absurd hc (consultHandlers_ne_cont _ _ _ _))

/-- Fetch-level version of stepOp_cont_gas. -/
theorem step_cont_gas (handlers : List Handler) (s t : StackMachineState)
    (hc : step handlers s = .cont t) : t.gas_used = s.gas_used + 1 := by
  rcases hfetch : s.opcodes[s.pc]? with _ | op
  · rw [step, hfetch] at hc; exact StepResult.noConfusion hc
  · rw [step, hfetch] at hc; exact stepOp_cont_gas handlers s t op hc

/-- With no registered trap handlers, a failing loop iteration fails
with stack underflow or an unhandled trap; the loop body itself never
fails with RanOutOfGas (that error only arises from the gas check). -/
theorem stepOp_nil_fail_kind (s t : StackMachineState) (op : Opcode)
    (e : StackMachineError) (hf : stepOp [] s op = .fail e t) :
    e = .NumberStackUnderflow ∨ e = .UnhandledTrap := by
  cases op <;>
    first
    | (simp only [stepOp, afterInstr, consultHandlers] at hf;
       (repeat' split at hf) <;>
         first
         | exact StepResult.noConfusion hf
         | (injection hf with h1 h2; exact Or.inl h1.symm)
         | (injection hf with h1 h2; exact Or.inr h1.symm))

/-- Fetch-level version of stepOp_nil_fail_kind. -/
theorem step_nil_fail_kind (s t : StackMachineState)
    (e : StackMachineError) (hf : step [] s = .fail e t) :
    e = .NumberStackUnderflow ∨ e = .UnhandledTrap := by
  rcases hfetch : s.opcodes[s.pc]? with _ | op
  · rw [step, hfetch] at hf; exact StepResult.noConfusion hf
  · rw [step, hfetch] at hf; exact stepOp_nil_fail_kind s t op e hf

/-- With no registered handlers, a RanOutOfGas result of the execute
loop always carries a state whose gas counter exceeds the limit. -/
theorem executeN_gas_err (l : Nat) :
    ∀ (fuel : Nat) (s t : StackMachineState),
      executeN [] (.Limited l) fuel s = .err .RanOutOfGas t →
      t.gas_used > l := by
  intro fuel
  induction fuel with
  | zero =>
    intro s t h
    simp only [executeN] at h
    exact Outcome.noConfusion h
  | succ n ih =>
    intro s t h
    simp only [executeN] at h
    cases hst : step [] s with
    | done s' => rw [hst] at h; exact Outcome.noConfusion h
    | crash s' => rw [hst] at h; exact Outcome.noConfusion h
    | fail e s' =>
      rw [hst] at h
      injection h with h1 h2
      rcases step_nil_fail_kind s s' e hst with he | he <;>
        (rw [h1] at he; exact StackMachineError.noConfusion he)
    | cont s' =>
      rw [hst] at h
      have h2 : (if s'.gas_used > l then Outcome.err .RanOutOfGas s'
          else executeN [] (.Limited l) n s') = Outcome.err .RanOutOfGas t := h
      by_cases hgas : s'.gas_used > l
      · rw [if_pos hgas] at h2
        injection h2 with h3 h4
        rw [← h4]; exact hgas
      · rw [if_neg hgas] at h2; exact ih s' t h2

/-- Vec::resize always produces the requested length. -/
theorem resizeOpcodes_length (l : List Opcode) (n : Nat) :
    (resizeOpcodes l n).length = n := by
  unfold resizeOpcodes
  split
  · simp only [List.length_append, List.length_replicate]; omega
  · simp only [List.length_take]; omega

/-- Resizing down to the committed length is a truncation. -/
theorem resizeOpcodes_of_le (l : List Opcode) (n : Nat)
    (h : n ≤ l.length) : resizeOpcodes l n = l.take n := by
  unfold resizeOpcodes
  split
  · have hn : n = l.length := le_antisymm h (by assumption)
    subst hn
    simp
  · rfl

/-- Truncating to the committed length and appending leaves the
committed prefix intact. -/
theorem take_resize_append (l : List Opcode) (n : Nat) (m : List Opcode)
    (h : n ≤ l.length) : (resizeOpcodes l n ++ m).take n = l.take n := by
  rw [resizeOpcodes_of_le l n h, List.take_append_eq_append_take]
  have hlen : (l.take n).length = n := by
    simp only [List.length_take]; omega
  rw [hlen, Nat.sub_self, List.take_zero, List.append_nil,
    List.take_take, min_self]

/-- The stripping pass never shrinks the high-water mark and never
rewrites the committed region below it: the first last_function
opcodes of the image are unchanged by compiling further definitions
(the word-body commits only truncate scratch space above the mark and
append past it). -/
theorem stripLoop_prefix (tv : List Token) (rest : List Token) :
    ∀ (c : ForthCompiler) (i ss sstop : Nat) (mode : Mode)
      (c' : ForthCompiler) (ops : List Opcode),
      c.last_function ≤ c.sm.opcodes.length →
      stripLoop tv rest c i ss sstop mode = .ok c' ops →
      c.last_function ≤ c'.last_function ∧
      c'.sm.opcodes.take c.last_function = c.sm.opcodes.take c.last_function := by
  induction rest with
  | nil =>
    intro c i ss sstop mode c' ops hinv h
    simp only [stripLoop] at h
    split at h
    · exact StripResult.noConfusion h
    · exact StripResult.noConfusion h
    · injection h with h1 h2
      subst h1
      exact ⟨le_refl _, rfl⟩
  | cons t rrest ih =>
    intro c i ss sstop mode c' ops hinv h
    cases t with
    | Colon s =>
      simp only [stripLoop] at h
      cases mode with
      | Interpreting => exact ih c (i + 1) i sstop (.Compiling s) c' ops hinv h
      | Compiling w => exact StripResult.noConfusion h
    | SemiColon =>
      simp only [stripLoop] at h
      cases mode with
      | Interpreting => exact StripResult.noConfusion h
      | Compiling w =>
        have key : ∀ cmid : ForthCompiler,
            cmid.last_function ≤ cmid.sm.opcodes.length →
            c.last_function ≤ cmid.last_function →
            cmid.sm.opcodes.take c.last_function
              = c.sm.opcodes.take c.last_function →
            stripLoop tv rrest cmid (i + 1) (i + 1) tv.length .Interpreting
              = .ok c' ops →
            c.last_function ≤ c'.last_function ∧
            c'.sm.opcodes.take c.last_function
              = c.sm.opcodes.take c.last_function := by
          intro cmid hi1 hi2 hi3 hrun
          have hres :=
            ih cmid (i + 1) (i + 1) tv.length .Interpreting c' ops hi1 hrun
          refine ⟨le_trans hi2 hres.1, ?_⟩
          calc c'.sm.opcodes.take c.last_function
              = (c'.sm.opcodes.take cmid.last_function).take c.last_function := by
                rw [List.take_take, min_eq_left hi2]
            _ = (cmid.sm.opcodes.take cmid.last_function).take c.last_function := by
                rw [hres.2]
            _ = cmid.sm.opcodes.take c.last_function := by
                rw [List.take_take, min_eq_left hi2]
            _ = c.sm.opcodes.take c.last_function := hi3
        cases hcomp : compile_token_vector
            { c with sm :=
                { c.sm with opcodes := resizeOpcodes c.sm.opcodes c.last_function } }
            (sliceTokens tv (ss + 1) i) with
        | crashed m => rw [hcomp] at h; exact StripResult.noConfusion h
        | err e => rw [hcomp] at h; exact StripResult.noConfusion h
        | ok tvc0 =>
          rw [hcomp] at h
          refine key
            ⟨⟨c.sm.number_stack, c.sm.return_stack,
              resizeOpcodes c.sm.opcodes c.last_function ++ (tvc0 ++ [Opcode.RET]),
              c.sm.pc, c.sm.gas_used⟩,
             (w, c.last_function) :: c.word_addresses,
             c.last_function + (tvc0 ++ [Opcode.RET]).length⟩
            ?_ ?_ ?_ h
          · simp only [List.length_append, resizeOpcodes_length]; omega
          · simp only []; omega
          · exact take_resize_append c.sm.opcodes c.last_function
              (tvc0 ++ [Opcode.RET]) hinv
    | Number n =>
      simp only [stripLoop] at h
      exact ih c (i + 1) ss sstop mode c' ops hinv h
    | Command s =>
      simp only [stripLoop] at h
      exact ih c (i + 1) ss sstop mode c' ops hinv h
    | End =>
      simp only [stripLoop] at h
      exact ih c (i + 1) ss sstop mode c' ops hinv h
    | Error s =>
      simp only [stripLoop] at h
      exact ih c (i + 1) ss sstop mode c' ops hinv h

/-- Claim C1 (corrected): a successful termination of execute always
originates from a loop iteration that ended the run, and such an
iteration is either a return opcode with an empty return stack or a
trap opcode whose handler chain reported Handled; contrary to the
original claim, a Handled trap also terminates the run successfully,
immediately, without continuing at the next instruction. -/
theorem C1_success_termination (handlers : List Handler) (g : GasLimit)
    (fuel : Nat) (s t : StackMachineState)
    (h : executeN handlers g fuel s = .ok t) :
    ∃ u : StackMachineState,
      (u.opcodes[u.pc]? = some Opcode.RET ∧ u.return_stack = [] ∧ t = u) ∨
      (∃ tid xs, u.opcodes[u.pc]? = some Opcode.TRAP ∧
        u.number_stack = tid :: xs ∧
        consultHandlers tid handlers { u with number_stack := xs } = .done t) := by
  obtain ⟨u, hu⟩ := executeN_ok_origin handlers g fuel s t h
  exact ⟨u, step_done_cases handlers u t hu⟩

/-- Claim C1, counterexample to the claim as stated: with the handler
of test_handle_trap_1 registered, a program whose image contains no
return opcode at all terminates successfully on the trap opcode (the
handler pops 50 and pushes 200), and the final state still has pc 0
and gas 0, so execution did not continue past the Handled trap. -/
theorem C1_counterexample :
    StackMachine.execute [handler100] 102 0 (.Limited 100)
        ⟨[100, 50], [], [Opcode.TRAP, Opcode.NOP], 0, 0⟩ =
      .ok ⟨[200], [], [Opcode.TRAP, Opcode.NOP], 0, 0⟩ ∧
    Opcode.RET ∉ [Opcode.TRAP, Opcode.NOP] :=
  ⟨rfl, by decide⟩

/-- Claim C1, witness: the amended theorem applied to the concrete
one-instruction program consisting of a single return opcode. -/
theorem C1_witness :
    ∃ u : StackMachineState,
      (u.opcodes[u.pc]? = some Opcode.RET ∧ u.return_stack = [] ∧
        (⟨[], [], [Opcode.RET], 0, 0⟩ : StackMachineState) = u) ∨
      (∃ tid xs, u.opcodes[u.pc]? = some Opcode.TRAP ∧
        u.number_stack = tid :: xs ∧
        consultHandlers tid [] { u with number_stack := xs } =
          .done ⟨[], [], [Opcode.RET], 0, 0⟩) :=
  C1_success_termination [] (.Limited 10) 12 ⟨[], [], [Opcode.RET], 0, 0⟩
    ⟨[], [], [Opcode.RET], 0, 0⟩ rfl

/-- Claim C4 (corrected): the gas counter starts at zero (execute
resets it before the loop), every loop iteration that falls through to
the bottom of the loop increments it by exactly one (including
iterations whose opcode jumped), and with a finite limit the run fails
with RanOutOfGas exactly when the counter exceeds the limit after an
increment; contrary to the original claim, an iteration that itself
terminates the run (return with empty return stack, a handled or
unhandled trap, or any error) returns before the increment, so the
final opcode of a successful run is not metered. -/
theorem C4_gas_accounting :
    (∀ (handlers : List Handler) (fuel start : Nat) (g : GasLimit)
        (s : StackMachineState),
      StackMachine.execute handlers fuel start g s =
        executeN handlers g fuel { s with pc := start, gas_used := 0 }) ∧
    (∀ (handlers : List Handler) (s t : StackMachineState),
      step handlers s = .cont t → t.gas_used = s.gas_used + 1) ∧
    (∀ (l fuel : Nat) (s t : StackMachineState),
      executeN [] (.Limited l) fuel s = .err .RanOutOfGas t →
        t.gas_used > l) ∧
    (∀ (handlers : List Handler) (l fuel : Nat) (s t : StackMachineState),
      step handlers s = .cont t → t.gas_used > l →
        executeN handlers (.Limited l) (fuel + 1) s = .err .RanOutOfGas t) := by
  refine ⟨?_, ?_, ?_, ?_⟩
  · intro handlers fuel start g s; rfl
  · exact fun handlers s t h => step_cont_gas handlers s t h
  · exact fun l fuel s t h => executeN_gas_err l fuel s t h
  · intro handlers l fuel s t hst hgas
    simp only [executeN, hst]
    rw [if_pos hgas]

/-- Claim C4, counterexample to the claim as stated: a program that is
a single return opcode runs successfully under gas limit 0 with a
final gas counter of 0, although one opcode was executed (the claim
would require the counter to reach 1 and the run to fail with
OutOfGas); by contrast a no-op before the return is metered and does
exhaust the limit. -/
theorem C4_counterexample :
    executeN [] (.Limited 0) 5 ⟨[], [], [Opcode.RET], 0, 0⟩ =
      .ok ⟨[], [], [Opcode.RET], 0, 0⟩ ∧
    executeN [] (.Limited 0) 5 ⟨[], [], [Opcode.NOP, Opcode.RET], 0, 0⟩ =
      .err .RanOutOfGas ⟨[], [], [Opcode.NOP, Opcode.RET], 1, 1⟩ :=
  ⟨rfl, rfl⟩

/-- Claim C4, witness: the amended theorem applied to a concrete no-op
step (gas 0 becomes 1) and to a concrete run that exceeds limit 0. -/
theorem C4_witness :
    ((⟨[], [], [Opcode.NOP], 1, 1⟩ : StackMachineState).gas_used =
      (⟨[], [], [Opcode.NOP], 0, 0⟩ : StackMachineState).gas_used + 1) ∧
    executeN [] (.Limited 0) 3 ⟨[], [], [Opcode.NOP], 0, 0⟩ =
      .err .RanOutOfGas ⟨[], [], [Opcode.NOP], 1, 1⟩ :=
  ⟨C4_gas_accounting.2.1 [] ⟨[], [], [Opcode.NOP], 0, 0⟩
      ⟨[], [], [Opcode.NOP], 1, 1⟩ rfl,
   C4_gas_accounting.2.2.2 [] 0 2 ⟨[], [], [Opcode.NOP], 0, 0⟩
      ⟨[], [], [Opcode.NOP], 1, 1⟩ rfl (by decide)⟩

/-- Claim C5 (confirmed): on a fresh compiler, running the source
string 0 IF 1 2 ADD ELSE 3 4 ADD THEN through tokenize, compile and
execute leaves the operand stack [3] (the false branch, since the
jump-if-nonzero is not taken on 0), and the same string with leading 1
leaves [7]; the two branches are mutually exclusive. -/
theorem C5_if_else_branches :
    (∃ c : ForthCompiler,
      execute_string [] 102 ForthCompiler.new
          "0 IF 1 2 ADD ELSE 3 4 ADD THEN" (.Limited 100) = .ok c ∧
      c.sm.number_stack = [3]) ∧
    (∃ c : ForthCompiler,
      execute_string [] 102 ForthCompiler.new
          "1 IF 1 2 ADD ELSE 3 4 ADD THEN" (.Limited 100) = .ok c ∧
      c.sm.number_stack = [7]) :=
  ⟨⟨⟨⟨[3], [],
      [Opcode.LDI 0, Opcode.LDI 6, Opcode.JRNZ, Opcode.LDI 1, Opcode.LDI 2,
       Opcode.ADD, Opcode.LDI 4, Opcode.JR, Opcode.LDI 3, Opcode.LDI 4,
       Opcode.ADD, Opcode.RET], 11, 8⟩, [], 0⟩, by rfl, rfl⟩,
   ⟨⟨⟨[7], [],
      [Opcode.LDI 1, Opcode.LDI 6, Opcode.JRNZ, Opcode.LDI 1, Opcode.LDI 2,
       Opcode.ADD, Opcode.LDI 4, Opcode.JR, Opcode.LDI 3, Opcode.LDI 4,
       Opcode.ADD, Opcode.RET], 11, 6⟩, [], 0⟩, by rfl, rfl⟩⟩

/-- Claim C6 (confirmed): the four binary arithmetic opcodes, run on
the two-element stacks used by the repository tests (written here with
the top of stack first), produce the pinned results: the first-popped
value (the old top) is the left operand, so sub computes 444 - 321 and
div computes 39483 / 321. -/
theorem C6_arith_pop_order :
    StackMachine.execute [] 102 0 (.Limited 100)
        ⟨[321, 123], [], [Opcode.ADD, Opcode.RET], 0, 0⟩ =
      .ok ⟨[444], [], [Opcode.ADD, Opcode.RET], 1, 1⟩ ∧
    StackMachine.execute [] 102 0 (.Limited 100)
        ⟨[444, 321], [], [Opcode.SUB, Opcode.RET], 0, 0⟩ =
      .ok ⟨[123], [], [Opcode.SUB, Opcode.RET], 1, 1⟩ ∧
    StackMachine.execute [] 102 0 (.Limited 100)
        ⟨[123, 321], [], [Opcode.MUL, Opcode.RET], 0, 0⟩ =
      .ok ⟨[39483], [], [Opcode.MUL, Opcode.RET], 1, 1⟩ ∧
    StackMachine.execute [] 102 0 (.Limited 100)
        ⟨[39483, 321], [], [Opcode.DIV, Opcode.RET], 0, 0⟩ =
      .ok ⟨[123], [], [Opcode.DIV, Opcode.RET], 1, 1⟩ :=
  ⟨rfl, rfl, rfl, rfl⟩

/-- Claim C7 (confirmed): whenever the operand stack is empty and the
fetched opcode is one that pops it, the loop iteration fails with
NumberStackUnderflow and the execute loop aborts at once with that
error; the state carried out is exactly the state at the point of
failure: unchanged, except that the call opcode has already pushed its
return address before the failing pop (mutations made before the
failure are retained, with no rollback). -/
theorem C7_stack_underflow (handlers : List Handler)
    (s : StackMachineState) (op : Opcode)
    (hfetch : s.opcodes[s.pc]? = some op)
    (hempty : s.number_stack = [])
    (hpops : popsOperandStack op = true) :
    step handlers s = .fail .NumberStackUnderflow
      (if op = Opcode.CALL
        then { s with return_stack := (s.pc + 1) :: s.return_stack }
        else s) ∧
    ∀ (fuel : Nat) (g : GasLimit),
      executeN handlers g (fuel + 1) s = .err .NumberStackUnderflow
        (if op = Opcode.CALL
          then { s with return_stack := (s.pc + 1) :: s.return_stack }
          else s) := by
  have hstep : step handlers s = .fail .NumberStackUnderflow
      (if op = Opcode.CALL
        then { s with return_stack := (s.pc + 1) :: s.return_stack }
        else s) := by
    cases op
    case LDI n => exact absurd hpops (by simp [popsOperandStack])
    case RET => exact absurd hpops (by simp [popsOperandStack])
    case NOP => exact absurd hpops (by simp [popsOperandStack])
    all_goals (rw [step, hfetch]; simp [stepOp, hempty])
  refine ⟨hstep, fun fuel g => ?_⟩
  simp only [executeN, hstep]

/-- Claim C7, witness: the theorem applied to a pop opcode on an empty
stack. -/
theorem C7_witness :
    step [] ⟨[], [], [Opcode.POP], 0, 0⟩ =
      .fail .NumberStackUnderflow ⟨[], [], [Opcode.POP], 0, 0⟩ ∧
    executeN [] (.Limited 5) 4 ⟨[], [], [Opcode.POP], 0, 0⟩ =
      .err .NumberStackUnderflow ⟨[], [], [Opcode.POP], 0, 0⟩ :=
  ⟨(C7_stack_underflow [] ⟨[], [], [Opcode.POP], 0, 0⟩ Opcode.POP
      rfl rfl rfl).1,
   (C7_stack_underflow [] ⟨[], [], [Opcode.POP], 0, 0⟩ Opcode.POP
      rfl rfl rfl).2 3 (.Limited 5)⟩

/-- Claim C9 (confirmed): executing the div opcode with a zero divisor
(the second-popped value) is not turned into any of the defined error
results; the iteration is a Rust panic (modelled by the crash
outcome), the state at the panic having both operands already popped,
and the run can never return an error value from that state. -/
theorem C9_div_by_zero (handlers : List Handler) (s : StackMachineState)
    (x : Int) (xs : List Int)
    (hfetch : s.opcodes[s.pc]? = some Opcode.DIV)
    (hstack : s.number_stack = x :: 0 :: xs) :
    step handlers s = .crash { s with number_stack := xs } ∧
    (∀ (fuel : Nat) (g : GasLimit),
      executeN handlers g (fuel + 1) s = .crashed { s with number_stack := xs }) ∧
    (∀ (fuel : Nat) (g : GasLimit) (e : StackMachineError)
        (t : StackMachineState),
      executeN handlers g fuel s ≠ .err e t) := by
  have hstep : step handlers s = .crash { s with number_stack := xs } := by
    rw [step, hfetch]; simp [stepOp, hstack]
  refine ⟨hstep, fun fuel g => ?_, fun fuel g e t => ?_⟩
  · simp only [executeN, hstep]
  · cases fuel with
    | zero =>
      intro h
      simp only [executeN] at h
      exact Outcome.noConfusion h
    | succ n =>
      intro h
      simp only [executeN, hstep] at h
      exact Outcome.noConfusion h

/-- Claim C9, witness: the theorem applied to the one-instruction
program dividing 7 by 0. -/
theorem C9_witness :
    step [] ⟨[7, 0], [], [Opcode.DIV], 0, 0⟩ =
      .crash ⟨[], [], [Opcode.DIV], 0, 0⟩ ∧
    executeN [] (.Limited 9) 4 ⟨[7, 0], [], [Opcode.DIV], 0, 0⟩ =
      .crashed ⟨[], [], [Opcode.DIV], 0, 0⟩ ∧
    executeN [] (.Limited 9) 7 ⟨[7, 0], [], [Opcode.DIV], 0, 0⟩ ≠
      .err .UnkownError ⟨[], [], [Opcode.DIV], 0, 0⟩ :=
  ⟨(C9_div_by_zero [] ⟨[7, 0], [], [Opcode.DIV], 0, 0⟩ 7 [] rfl rfl).1,
   (C9_div_by_zero [] ⟨[7, 0], [], [Opcode.DIV], 0, 0⟩ 7 [] rfl rfl).2.1
     3 (.Limited 9),
   (C9_div_by_zero [] ⟨[7, 0], [], [Opcode.DIV], 0, 0⟩ 7 [] rfl rfl).2.2
     7 (.Limited 9) .UnkownError ⟨[], [], [Opcode.DIV], 0, 0⟩⟩

/-- Claim C10 (confirmed): the instruction fetch performs no bounds
check: from any state whose program counter is at or past the end of
the bytecode image, the loop iteration is a Rust panic (the crash
outcome) with the state untouched, and the run can never return an
error value from that state. -/
theorem C10_fetch_out_of_bounds (handlers : List Handler)
    (s : StackMachineState) (hpc : s.opcodes.length ≤ s.pc) :
    step handlers s = .crash s ∧
    (∀ (fuel : Nat) (g : GasLimit),
      executeN handlers g (fuel + 1) s = .crashed s) ∧
    (∀ (fuel : Nat) (g : GasLimit) (e : StackMachineError)
        (t : StackMachineState),
      executeN handlers g fuel s ≠ .err e t) := by
  have hfetch : s.opcodes[s.pc]? = none := List.getElem?_eq_none hpc
  have hstep : step handlers s = .crash s := by rw [step, hfetch]
  refine ⟨hstep, fun fuel g => ?_, fun fuel g e t => ?_⟩
  · simp only [executeN, hstep]
  · cases fuel with
    | zero =>
      intro h
      simp only [executeN] at h
      exact Outcome.noConfusion h
    | succ n =>
      intro h
      simp only [executeN, hstep] at h
      exact Outcome.noConfusion h

/-- Claim C10, witness: the theorem applied to an empty image with the
program counter at zero. -/
theorem C10_witness :
    step [] ⟨[], [], [], 0, 0⟩ = .crash ⟨[], [], [], 0, 0⟩ ∧
    executeN [] (.Limited 9) 4 ⟨[], [], [], 0, 0⟩ =
      .crashed ⟨[], [], [], 0, 0⟩ ∧
    executeN [] (.Limited 9) 6 ⟨[], [], [], 0, 0⟩ ≠
      .err .RanOutOfGas ⟨[], [], [], 0, 0⟩ :=
  ⟨(C10_fetch_out_of_bounds [] ⟨[], [], [], 0, 0⟩ (by decide)).1,
   (C10_fetch_out_of_bounds [] ⟨[], [], [], 0, 0⟩ (by decide)).2.1
     3 (.Limited 9),
   (C10_fetch_out_of_bounds [] ⟨[], [], [], 0, 0⟩ (by decide)).2.2
     6 (.Limited 9) .RanOutOfGas ⟨[], [], [], 0, 0⟩⟩

/-- Claim C2 (code bug): evaluation of the compiler at an IF/ELSE/THEN
construct whose branches have different lengths.  The claim (and the
spec intent of landing just past the ELSE jump) requires the IF
placeholder payload to be the offset from the IF jump to the ELSE jump
plus one, here 4 (else placeholder at 4, jump at 5, IF placeholder at
1, jump at 2): taking the jump would then land at instruction 6, the
start of the false branch.  The code instead patches it with the
offset from the ELSE placeholder to the THEN position plus one, here
9 - 4 + 1 = 6, which lands at instruction 8 in the middle of the false
branch; running the construct with a nonzero test therefore underflows
instead of computing 2 3 ADD. -/
theorem C2_patch_formula_evaluation :
    compile_token_vector ForthCompiler.new
        [Token.Number 1, Token.Command "IF", Token.Number 1,
         Token.Command "ELSE", Token.Number 2, Token.Number 3,
         Token.Command "ADD", Token.Command "THEN"] =
      .ok [Opcode.LDI 1, Opcode.LDI 6, Opcode.JRNZ, Opcode.LDI 1,
           Opcode.LDI 4, Opcode.JR, Opcode.LDI 2, Opcode.LDI 3,
           Opcode.ADD] ∧
    execute_string [] 102 ForthCompiler.new "1 IF 1 ELSE 2 3 ADD THEN"
        (.Limited 100) =
      .err ForthError.PopOfEmptyStack
        ⟨⟨[], [],
          [Opcode.LDI 1, Opcode.LDI 6, Opcode.JRNZ, Opcode.LDI 1,
           Opcode.LDI 4, Opcode.JR, Opcode.LDI 2, Opcode.LDI 3,
           Opcode.ADD, Opcode.RET], 8, 3⟩, [], 0⟩ :=
  ⟨by rfl, by rfl⟩

/-- Claim C3 (code bug): for the token stream of the repository test
test_compile_2, the stripping pass compiles both word definitions into
the word table but discards the top-level call between them (the Colon
arm resets the segment start to the colon index, losing the tokens
gathered since the previous segment end), so the immediate-mode body
is a bare return and running the whole string leaves the operand stack
empty, where the claim (and the repository test) expect the call to
run and leave 888. -/
theorem C3_dropped_tokens_evaluation :
    tokenize_string
        ": RickTest 123 321 ADD 2 MUL ; RickTest : RickTestB 123 321 ADD 2 MUL ;" =
      .ok [Token.Colon "RickTest", Token.Number 123, Token.Number 321,
           Token.Command "ADD", Token.Number 2, Token.Command "MUL",
           Token.SemiColon, Token.Command "RickTest",
           Token.Colon "RickTestB", Token.Number 123, Token.Number 321,
           Token.Command "ADD", Token.Number 2, Token.Command "MUL",
           Token.SemiColon] ∧
    compile_token_vector_strip_word_definitions ForthCompiler.new
        [Token.Colon "RickTest", Token.Number 123, Token.Number 321,
         Token.Command "ADD", Token.Number 2, Token.Command "MUL",
         Token.SemiColon, Token.Command "RickTest",
         Token.Colon "RickTestB", Token.Number 123, Token.Number 321,
         Token.Command "ADD", Token.Number 2, Token.Command "MUL",
         Token.SemiColon] =
      .ok
        ⟨⟨[], [],
          [Opcode.LDI 123, Opcode.LDI 321, Opcode.ADD, Opcode.LDI 2,
           Opcode.MUL, Opcode.RET, Opcode.LDI 123, Opcode.LDI 321,
           Opcode.ADD, Opcode.LDI 2, Opcode.MUL, Opcode.RET], 0, 0⟩,
         [("RickTestB", 6), ("RickTest", 0)], 12⟩
        [Opcode.RET] ∧
    (∃ c : ForthCompiler,
      execute_string [] 200 ForthCompiler.new
          ": RickTest 123 321 ADD 2 MUL ; RickTest : RickTestB 123 321 ADD 2 MUL ;"
          (.Limited 100) = .ok c ∧
      c.sm.number_stack = []) :=
  ⟨by rfl, by rfl,
   ⟨⟨⟨[], [],
      [Opcode.LDI 123, Opcode.LDI 321, Opcode.ADD, Opcode.LDI 2,
       Opcode.MUL, Opcode.RET, Opcode.LDI 123, Opcode.LDI 321,
       Opcode.ADD, Opcode.LDI 2, Opcode.MUL, Opcode.RET, Opcode.RET],
      12, 0⟩, [("RickTestB", 6), ("RickTest", 0)], 12⟩, by rfl, rfl⟩⟩

/-- Claim C8 (confirmed): redefining a word only changes how later
compilations resolve the name.  First, a call to a word found in the
word table is compiled as a push-immediate of the entry offset looked
up at compile time followed by a call opcode, so the target is baked
into the emitted code as a literal.  Second, compiling further (for
example a redefinition) never shrinks the high-water mark and never
rewrites the already committed region below it, so previously
committed call sites keep their baked-in offsets; execution reads only
the opcode image and never consults the word table, hence previously
compiled code behaves identically.  Third, a concrete end-to-end run:
after defining word A and a word B that calls A, redefining A to push
5 does not change the behaviour of B, which still pushes 1 + 2 = 3. -/
theorem C8_word_redefinition :
    (∀ (c : ForthCompiler) (w : String) (a : Nat),
      w ≠ "IF" → w ≠ "ELSE" → w ≠ "THEN" →
      lookupWord c.word_addresses w = some a →
      compile_token_vector c [Token.Command w]
        = .ok [Opcode.LDI (a : Int), Opcode.CALL]) ∧
    (∀ (c : ForthCompiler) (tv : List Token) (c' : ForthCompiler)
        (ops : List Opcode),
      c.last_function ≤ c.sm.opcodes.length →
      compile_token_vector_strip_word_definitions c tv = .ok c' ops →
      c.last_function ≤ c'.last_function ∧
      c'.sm.opcodes.take c.last_function
        = c.sm.opcodes.take c.last_function) ∧
    (∃ c1 : ForthCompiler,
      execute_string [] 200 ForthCompiler.new ": A 1 ; : B A 2 ADD ; B"
          (.Limited 100) = .ok c1 ∧
      c1.sm.number_stack = [3] ∧
      ∃ c2 : ForthCompiler,
        execute_string [] 200 c1 ": A 5 ; B" (.Limited 100) = .ok c2 ∧
        c2.sm.number_stack = [3, 3]) := by
  refine ⟨?_, ?_, ?_⟩
  · intro c w a h1 h2 h3 hl
    simp [compile_token_vector, compileTVAux, h1, h2, h3, hl]
  · intro c tv c' ops hinv h
    exact stripLoop_prefix tv tv c 0 0 tv.length .Interpreting c' ops hinv h
  · refine ⟨⟨⟨[3], [],
      [Opcode.LDI 1, Opcode.RET, Opcode.LDI 0, Opcode.CALL, Opcode.LDI 2,
       Opcode.ADD, Opcode.RET, Opcode.LDI 2, Opcode.CALL, Opcode.RET],
      9, 9⟩, [("B", 2), ("A", 0)], 7⟩, by rfl, rfl, ?_⟩
    exact ⟨⟨⟨[3, 3], [],
      [Opcode.LDI 1, Opcode.RET, Opcode.LDI 0, Opcode.CALL, Opcode.LDI 2,
       Opcode.ADD, Opcode.RET, Opcode.LDI 5, Opcode.RET, Opcode.LDI 2,
       Opcode.CALL, Opcode.RET],
      11, 9⟩, [("A", 7), ("B", 2), ("A", 0)], 9⟩, by rfl, rfl⟩

/-- Claim C8, witness: the baked-immediate part applied to a table
binding RickTest to offset 0, and the prefix-preservation part applied
to a compiler holding one committed two-opcode word while compiling a
redefinition of A. -/
theorem C8_witness :
    compile_token_vector ⟨StackMachineState.new, [("RickTest", 0)], 0⟩
        [Token.Command "RickTest"]
      = .ok [Opcode.LDI 0, Opcode.CALL] ∧
    ((⟨⟨[], [], [Opcode.LDI 1, Opcode.RET], 0, 0⟩, [("A", 0)], 2⟩ :
        ForthCompiler).last_function
      ≤ (⟨⟨[], [], [Opcode.LDI 1, Opcode.RET, Opcode.LDI 5, Opcode.RET],
            0, 0⟩, [("A", 2), ("A", 0)], 4⟩ : ForthCompiler).last_function ∧
     (⟨⟨[], [], [Opcode.LDI 1, Opcode.RET, Opcode.LDI 5, Opcode.RET],
          0, 0⟩, [("A", 2), ("A", 0)], 4⟩ :
        ForthCompiler).sm.opcodes.take 2
       = (⟨⟨[], [], [Opcode.LDI 1, Opcode.RET], 0, 0⟩, [("A", 0)], 2⟩ :
           ForthCompiler).sm.opcodes.take 2) :=
  ⟨C8_word_redefinition.1 ⟨StackMachineState.new, [("RickTest", 0)], 0⟩
     "RickTest" 0 (by decide) (by decide) (by decide) rfl,
   C8_word_redefinition.2.1
     ⟨⟨[], [], [Opcode.LDI 1, Opcode.RET], 0, 0⟩, [("A", 0)], 2⟩
     [Token.Colon "A", Token.Number 5, Token.SemiColon]
     ⟨⟨[], [], [Opcode.LDI 1, Opcode.RET, Opcode.LDI 5, Opcode.RET],
        0, 0⟩, [("A", 2), ("A", 0)], 4⟩
     [Opcode.RET] (by decide) (by rfl)⟩
